import Mathlib

/-!
Verification of the interference-model core of the repository
(package `hardcoded`, file `acti/hardcoded/apps.go`).

The Go code is shallowly embedded as follows:
- `appCategory` (Go `type appCategory int64`) becomes `Int`; the five
  constants `catA .. catE` are `0 .. 4` (Go `iota`).
- Go `float64` values appear only as literals that are stored in and read
  back from a table, never operated on arithmetically, so they are modelled
  exactly as rationals `ℚ`.
- Go maps become association lists; a lookup of an absent key yields the
  Go zero value (`0` for `float64`, `[]`/`""` for maps and strings), matching
  Go map-read semantics.
- A Go `error` result becomes `Option goError` (`none` = `nil`); the only
  error the package builds is `fmt.Errorf("unknown application category: ...",
  category)`, modelled as a structured value carrying the offending string.
- Go multiple return values become pairs.
-/

/-- Model of Go `type appCategory int64`. -/
abbrev appCategory := Int

/-- Go `catA appCategory = iota`. -/
def catA : appCategory := 0

/-- Go `catB`. -/
def catB : appCategory := 1

/-- Go `catC`. -/
def catC : appCategory := 2

/-- Go `catD`. -/
def catD : appCategory := 3

/-- Go `catE`. -/
def catE : appCategory := 4

/-- Model of the Go `error` value produced by this package: the result of
`fmt.Errorf` naming the offending (unknown) category string. -/
inductive goError where
  | unknownAppCategory (category : String)
deriving DecidableEq, Repr

/-- Go `func (ac appCategory) String() string`: the `switch` over the five
known categories, with default `"UNKNOWN"`. -/
def appCategory.String (ac : appCategory) : String :=
  if ac = catA then "catA"
  else if ac = catB then "catB"
  else if ac = catC then "catC"
  else if ac = catD then "catD"
  else if ac = catE then "catE"
  else "UNKNOWN"

/-- Go `func parseAppCategory(category string) (appCategory, error)`: the
`switch` over the five canonical names; the default branch returns
`(-1, fmt.Errorf(..., category))`. -/
def parseAppCategory (category : String) : appCategory × Option goError :=
  if category = "catA" then (catA, none)
  else if category = "catB" then (catB, none)
  else if category = "catC" then (catC, none)
  else if category = "catD" then (catD, none)
  else if category = "catE" then (catE, none)
  else (-1, some (goError.unknownAppCategory category))

/-- Go `var slowDowns slowDownMatrix`: the hardcoded nested map literal,
as an association list of rows (row key = attacker, column key = occupant). -/
def slowDowns : List (appCategory × List (appCategory × ℚ)) :=
  [ (catA, [(catA, 1.15), (catB, 2.43), (catC, 1.22), (catD, 1.34), (catE, 1.41)]),
    (catB, [(catA, 2.19), (catB, 1.26), (catC, 1.48), (catD, 3.10), (catE, 1.37)]),
    (catC, [(catA, 1.21), (catB, 3.09), (catC, 2.12), (catD, 1.18), (catE, 1.53)]),
    (catD, [(catA, 1.47), (catB, 1.24), (catC, 1.76), (catD, 2.25), (catE, 1.10)]),
    (catE, [(catA, 3.15), (catB, 1.74), (catC, 1.16), (catD, 1.27), (catE, 2.53)]) ]

/-- Go map read `m[k]` on a `map[appCategory]float64`: absent keys yield
the zero value `0`. -/
def mapGetQ (m : List (appCategory × ℚ)) (k : appCategory) : ℚ :=
  (m.lookup k).getD 0

/-- Go map read `slowDowns[k]` on the outer `map[appCategory]map[...]`:
an absent key yields the zero value (`nil` map, i.e. the empty map). -/
def mapGetRow (m : List (appCategory × List (appCategory × ℚ)))
    (k : appCategory) : List (appCategory × ℚ) :=
  (m.lookup k).getD []

/-- Go `func (ac appCategory) attack(occupant appCategory) float64`:
`return slowDowns[ac][occupant]`. -/
def appCategory.attack (ac occupant : appCategory) : ℚ :=
  mapGetQ (mapGetRow slowDowns ac) occupant

/-- The fragment of `corev1.Pod` that `Attack` reads: its `Labels` map. -/
structure Pod where
  Labels : List (String × String)

/-- Go map read `p.Labels[key]` on a `map[string]string`: absent keys yield
the zero value `""`. -/
def Pod.labelGet (p : Pod) (key : String) : String :=
  (p.Labels.lookup key).getD ""

/-- Go `type HardcodedSlowDowns struct { actiLabelKey string }`. -/
structure HardcodedSlowDowns where
  actiLabelKey : String

/-- Go `func New(actiLabelKey string) *HardcodedSlowDowns`. -/
def New (actiLabelKey : String) : HardcodedSlowDowns :=
  { actiLabelKey := actiLabelKey }

/-- Go `func (m *HardcodedSlowDowns) Attack(attacker, occupant *corev1.Pod)
(float64, error)`: parse the occupant label discarding the error, parse the
attacker label, return `(-1, err)` on attacker failure, else the table value. -/
def HardcodedSlowDowns.Attack (m : HardcodedSlowDowns) (attacker occupant : Pod) :
    ℚ × Option goError :=
  let occPodCategory := (parseAppCategory (occupant.labelGet m.actiLabelKey)).1
  match parseAppCategory (attacker.labelGet m.actiLabelKey) with
  | (_, some err) => (-1, some err)
  | (newPodCategory, none) => (appCategory.attack newPodCategory occPodCategory, none)

/-- Go `const toInt64Multiplier = 100.`. -/
def toInt64Multiplier : ℚ := 100

/-- Go `func (_ *HardcodedSlowDowns) ToInt64Multiplier() float64`. -/
def HardcodedSlowDowns.ToInt64Multiplier (_ : HardcodedSlowDowns) : ℚ :=
  toInt64Multiplier

/-- A pod carrying a single label `key: value`, the shape `Attack` reads. -/
def mkPod (key value : String) : Pod :=
  { Labels := [(key, value)] }

/-- The closed set of known categories. -/
def validCategories : List appCategory := [catA, catB, catC, catD, catE]

/-- The canonical external names of the known categories. -/
def canonicalNames : List String := ["catA", "catB", "catC", "catD", "catE"]

/-! Helper lemmas. -/

theorem labelGet_mkPod (k v : String) : (mkPod k v).labelGet k = v := by
  simp [Pod.labelGet, mkPod, List.lookup]

theorem Attack_mkPod (k s t : String) :
    (New k).Attack (mkPod k s) (mkPod k t) =
      match parseAppCategory s with
      | (_, some err) => (-1, some err)
      | (c, none) => (appCategory.attack c (parseAppCategory t).1, none) := by
  simp only [HardcodedSlowDowns.Attack, New, labelGet_mkPod]

theorem parse_ok_iff (s : String) :
    (parseAppCategory s).2 = none ↔ s ∈ canonicalNames := by
  unfold parseAppCategory
  split_ifs <;> simp_all [canonicalNames]

theorem parse_fail_eq (s : String) (h : s ∉ canonicalNames) :
    parseAppCategory s = (-1, some (goError.unknownAppCategory s)) := by
  simp only [canonicalNames, List.mem_cons, List.not_mem_nil, or_false] at h
  push_neg at h
  unfold parseAppCategory
  split_ifs <;> simp_all

theorem attack_nonneg (a o : appCategory) : 0 ≤ appCategory.attack a o := by
  unfold appCategory.attack mapGetRow mapGetQ slowDowns
  simp only [List.lookup]
  repeat' split
  all_goals simp only [Option.getD_some, Option.getD_none, List.lookup]
  all_goals repeat' split
  all_goals norm_num

theorem attack_neg_one (a : appCategory) : appCategory.attack a (-1) = 0 := by
  unfold appCategory.attack mapGetRow mapGetQ slowDowns
  simp only [List.lookup]
  repeat' split
  all_goals rfl

/-! Claim theorems. -/

/-- C1: For every pair (a, o) of categories in the closed five-element set
catA..catE, `Attack` applied to an attacker labeled with the rendering of a
and an occupant labeled with the rendering of o succeeds and returns exactly
the configured table entry `slowDowns[a][o]`. -/
theorem attack_table_complete (k : String) (a : appCategory)
    (ha : a ∈ validCategories) (o : appCategory) (ho : o ∈ validCategories) :
    (New k).Attack (mkPod k (appCategory.String a)) (mkPod k (appCategory.String o)) =
      (appCategory.attack a o, none) := by
  rw [Attack_mkPod]
  have ha' : a = catA ∨ a = catB ∨ a = catC ∨ a = catD ∨ a = catE := by
    simpa [validCategories] using ha
  have ho' : o = catA ∨ o = catB ∨ o = catC ∨ o = catD ∨ o = catE := by
    simpa [validCategories] using ho
  rcases ha' with rfl | rfl | rfl | rfl | rfl <;>
    rcases ho' with rfl | rfl | rfl | rfl | rfl <;> rfl

/-- Witness for C1: attacker "catA" vs occupant "catB" returns 2.43, and
attacker "catB" vs occupant "catD" returns 3.10. -/
theorem attack_table_complete_witness :
    catA ∈ validCategories ∧ catB ∈ validCategories ∧ catD ∈ validCategories ∧
    (New "acti").Attack (mkPod "acti" (appCategory.String catA))
      (mkPod "acti" (appCategory.String catB)) = (2.43, none) ∧
    (New "acti").Attack (mkPod "acti" (appCategory.String catB))
      (mkPod "acti" (appCategory.String catD)) = (3.10, none) :=
  ⟨by decide, by decide, by decide,
   (attack_table_complete "acti" catA (by decide) catB (by decide)).trans (by rfl),
   (attack_table_complete "acti" catB (by decide) catD (by decide)).trans (by rfl)⟩

/-- C2: for any attacker label that does not resolve to a known category and
any occupant label, `Attack` fails with the unknown-category error naming the
attacker label; conversely a resolving attacker label never yields an error. -/
theorem attack_attacker_validation (k s t : String) :
    ((parseAppCategory s).2 ≠ none →
      (New k).Attack (mkPod k s) (mkPod k t) =
        (-1, some (goError.unknownAppCategory s))) ∧
    ((parseAppCategory s).2 = none →
      ((New k).Attack (mkPod k s) (mkPod k t)).2 = none) := by
  constructor
  · intro h
    have hs : s ∉ canonicalNames := fun hmem => h ((parse_ok_iff s).2 hmem)
    rw [Attack_mkPod, parse_fail_eq s hs]
  · intro h
    rw [Attack_mkPod]
    rcases hp : parseAppCategory s with ⟨c, e⟩
    rw [hp] at h
    cases e with
    | none => rfl
    | some err => simp at h

/-- Witness for C2: attacker "unknownCat" with occupant "catA" fails naming
"unknownCat"; attacker "catA" with occupant "catB" yields no error. -/
theorem attack_attacker_validation_witness :
    (New "acti").Attack (mkPod "acti" "unknownCat") (mkPod "acti" "catA") =
      (-1, some (goError.unknownAppCategory "unknownCat")) ∧
    ((New "acti").Attack (mkPod "acti" "catA") (mkPod "acti" "catB")).2 = none :=
  ⟨(attack_attacker_validation "acti" "unknownCat" "catA").1 (by decide),
   (attack_attacker_validation "acti" "catA" "catB").2 (by decide)⟩

/-- C3: for every occupant label, including ones that do not resolve to any
known category, as long as the attacker label resolves, `Attack` returns
successfully with no error: the occupant-side parse failure is silently
tolerated. -/
theorem attack_occupant_tolerated (k s t : String)
    (hs : (parseAppCategory s).2 = none) :
    ((New k).Attack (mkPod k s) (mkPod k t)).2 = none := by
  rw [Attack_mkPod]
  rcases hp : parseAppCategory s with ⟨c, e⟩
  rw [hp] at hs
  cases e with
  | none => rfl
  | some err => simp at hs

/-- Witness for C3: attacker "catA" with unresolvable occupant "unknownCat"
returns with no error. -/
theorem attack_occupant_tolerated_witness :
    (parseAppCategory "catA").2 = none ∧
    ((New "acti").Attack (mkPod "acti" "catA") (mkPod "acti" "unknownCat")).2 = none :=
  ⟨by decide, attack_occupant_tolerated "acti" "catA" "unknownCat" (by decide)⟩

/-- C4: a non-resolving occupant label combined with a resolving attacker
label makes `Attack` return exactly (0, nil): the failed occupant parse
yields -1, the attacker row of the table has no entry for -1, and the
missing-entry map read yields the zero value 0, which `Attack` returns
without error. -/
theorem attack_unknown_occupant_zero (k s t : String)
    (hs : (parseAppCategory s).2 = none) (ht : (parseAppCategory t).2 ≠ none) :
    (New k).Attack (mkPod k s) (mkPod k t) = (0, none) := by
  have htn : t ∉ canonicalNames := fun hmem => ht ((parse_ok_iff t).2 hmem)
  have ht1 : (parseAppCategory t).1 = -1 := by rw [parse_fail_eq t htn]
  rw [Attack_mkPod]
  rcases hp : parseAppCategory s with ⟨c, e⟩
  rw [hp] at hs
  cases e with
  | some err => simp at hs
  | none => simp only [ht1, attack_neg_one]

/-- Witness for C4: attacker "catA" with occupant "unknownCat" returns
exactly (0, nil). -/
theorem attack_unknown_occupant_zero_witness :
    (parseAppCategory "catA").2 = none ∧ (parseAppCategory "unknownCat").2 ≠ none ∧
    (New "acti").Attack (mkPod "acti" "catA") (mkPod "acti" "unknownCat") = (0, none) :=
  ⟨by decide, by decide,
   attack_unknown_occupant_zero "acti" "catA" "unknownCat" (by decide) (by decide)⟩

/-- C5: the table is directional: attacker "catA" vs occupant "catB" gives
2.43 while attacker "catB" vs occupant "catA" gives 2.19, two different
values, so there exist categories a, o in the closed set with
attack(a, o) different from attack(o, a). -/
theorem attack_asymmetric :
    (New "acti").Attack (mkPod "acti" "catA") (mkPod "acti" "catB") = (2.43, none) ∧
    (New "acti").Attack (mkPod "acti" "catB") (mkPod "acti" "catA") = (2.19, none) ∧
    (2.43 : ℚ) ≠ (2.19 : ℚ) ∧
    ∃ a, a ∈ validCategories ∧ ∃ o, o ∈ validCategories ∧
      appCategory.attack a o ≠ appCategory.attack o a := by
  have h1 : appCategory.attack catA catB = 2.43 := by rfl
  have h2 : appCategory.attack catB catA = 2.19 := by rfl
  refine ⟨by rfl, by rfl, by norm_num, catA, by decide, catB, by decide, ?_⟩
  rw [h1, h2]
  norm_num

/-- C6: for every category c in the closed set, parsing the rendered string
of c succeeds and returns c itself. -/
theorem parse_render_roundtrip (c : appCategory) (hc : c ∈ validCategories) :
    parseAppCategory (appCategory.String c) = (c, none) := by
  have hc' : c = catA ∨ c = catB ∨ c = catC ∨ c = catD ∨ c = catE := by
    simpa [validCategories] using hc
  rcases hc' with rfl | rfl | rfl | rfl | rfl <;> rfl

/-- Witness for C6 at catC. -/
theorem parse_render_roundtrip_witness :
    catC ∈ validCategories ∧
    parseAppCategory (appCategory.String catC) = (catC, none) :=
  ⟨by decide, parse_render_roundtrip catC (by decide)⟩

/-- C7: parsing succeeds exactly on the five canonical names; on any other
string it fails deterministically with the unknown-category error naming the
offending string. -/
theorem parse_total_characterization (s : String) :
    ((parseAppCategory s).2 = none ↔ s ∈ canonicalNames) ∧
    (s ∉ canonicalNames →
      parseAppCategory s = (-1, some (goError.unknownAppCategory s))) :=
  ⟨parse_ok_iff s, parse_fail_eq s⟩

/-- Witness for C7 at the rejected strings "catF", "" and "CatA". -/
theorem parse_total_characterization_witness :
    parseAppCategory "catF" = (-1, some (goError.unknownAppCategory "catF")) ∧
    parseAppCategory "" = (-1, some (goError.unknownAppCategory "")) ∧
    parseAppCategory "CatA" = (-1, some (goError.unknownAppCategory "CatA")) :=
  ⟨(parse_total_characterization "catF").2 (by decide),
   (parse_total_characterization "").2 (by decide),
   (parse_total_characterization "CatA").2 (by decide)⟩

/-- C8: every entry of the configured slowdown table is non-negative, over
the full table; consequently whenever `Attack` returns without error, the
returned slowdown factor is non-negative. -/
theorem slowdowns_nonneg :
    (∀ r ∈ slowDowns, ∀ e ∈ r.2, 0 ≤ e.2) ∧
    ∀ (m : HardcodedSlowDowns) (attacker occupant : Pod),
      (m.Attack attacker occupant).2 = none →
        0 ≤ (m.Attack attacker occupant).1 := by
  constructor
  · intro r hr e he
    fin_cases hr <;> simp only at he <;> fin_cases he <;> norm_num
  · intro m attacker occupant h
    simp only [HardcodedSlowDowns.Attack] at h ⊢
    rcases hp : parseAppCategory (attacker.labelGet m.actiLabelKey) with ⟨c, e⟩
    rw [hp] at h
    cases e with
    | some err => simp at h
    | none => exact attack_nonneg c _

/-- Witness for C8: the (catA, catB) entry 2.43 is non-negative, and a
concrete error-free Attack result is non-negative. -/
theorem slowdowns_nonneg_witness :
    (0 : ℚ) ≤ 2.43 ∧
    0 ≤ ((New "acti").Attack (mkPod "acti" "catA") (mkPod "acti" "catB")).1 := by
  constructor
  · have hrow :
        (catA, [(catA, (1.15 : ℚ)), (catB, 2.43), (catC, 1.22), (catD, 1.34),
          (catE, 1.41)]) ∈ slowDowns := by
      unfold slowDowns
      exact List.Mem.head _
    have hentry : (catB, (2.43 : ℚ)) ∈
        [(catA, (1.15 : ℚ)), (catB, 2.43), (catC, 1.22), (catD, 1.34),
          (catE, 1.41)] :=
      List.Mem.tail _ (List.Mem.head _)
    exact slowdowns_nonneg.1 _ hrow _ hentry
  · exact slowdowns_nonneg.2 (New "acti") (mkPod "acti" "catA")
      (mkPod "acti" "catB") (by rfl)

/-- C9: the scaling-constant accessor is a pure function of nothing: on every
receiver it returns the identical fixed value 100, independent of any prior
operation. -/
theorem toInt64Multiplier_fixed :
    (∀ m : HardcodedSlowDowns, m.ToInt64Multiplier = 100) ∧
    ∀ m m' : HardcodedSlowDowns, m.ToInt64Multiplier = m'.ToInt64Multiplier :=
  ⟨fun _ => rfl, fun _ _ => rfl⟩

/-- C10: rendering is total: each of the five valid categories renders to its
canonical name, and any category value outside the closed set renders to the
sentinel "UNKNOWN" rather than failing. -/
theorem string_total :
    appCategory.String catA = "catA" ∧ appCategory.String catB = "catB" ∧
    appCategory.String catC = "catC" ∧ appCategory.String catD = "catD" ∧
    appCategory.String catE = "catE" ∧
    ∀ c : appCategory, c ∉ validCategories → appCategory.String c = "UNKNOWN" := by
  refine ⟨rfl, rfl, rfl, rfl, rfl, ?_⟩
  intro c hc
  simp only [validCategories, List.mem_cons, List.not_mem_nil, or_false,
    not_or] at hc
  obtain ⟨h1, h2, h3, h4, h5⟩ := hc
  unfold appCategory.String
  rw [if_neg h1, if_neg h2, if_neg h3, if_neg h4, if_neg h5]

/-- Witness for C10 at the out-of-range category value 5. -/
theorem string_total_witness :
    (5 : appCategory) ∉ validCategories ∧ appCategory.String 5 = "UNKNOWN" :=
  ⟨by decide, string_total.2.2.2.2.2 5 (by decide)⟩
